import Mathlib

/-
Verification of the two UI components of this repository:
a two-factor-authentication modal (TwoFactorAuthenticationModal.tsx, first part)
and a StyledUpdate component (second part of the same file).
The TypeScript is shallowly embedded: component handlers become pure state
transformers over explicit state records, and external effects (GraphQL
mutations, navigation, console output) become elements of an effect trace.
-/

namespace TwoFA

/-- Modelled from the spec: the browser local storage, used by the modal through
the helpers getFromLocalStorage and setLocalStorage of lib/local-storage, which
are not part of the sources; modelled as a partial map from string keys to
string values with standard key-value semantics. -/
def LocalStorage : Type := String → Option String

/-- Modelled from the spec: the local-storage key LOCAL_STORAGE_KEYS.PREFERRED_TWO_FACTOR_METHOD
referenced by the modal; its concrete spelling is irrelevant, only its identity as a key. -/
def PREFERRED_TWO_FACTOR_METHOD : String := "PREFERRED_TWO_FACTOR_METHOD"

/-- Modelled from the spec: reading a key from local storage. -/
def getFromLocalStorage (store : LocalStorage) (key : String) : Option String :=
  store key

/-- Modelled from the spec: writing a key to local storage. -/
def setLocalStorage (store : LocalStorage) (key : String) (value : String) : LocalStorage :=
  fun k => if k = key then some value else store k

/-- JavaScript logical-or on a nullable string: the left operand is returned
when it is truthy (a non-empty string); otherwise the right operand is
returned. Embeds the expression a || b of initialMethod. -/
def jsOrString (a b : Option String) : Option String :=
  match a with
  | some s => if s = "" then b else some s
  | none => b

/-- Embeds initialMethod of TwoFactorAuthenticationModal.tsx: absent list gives
null; a singleton list gives its element; otherwise the stored preferred method
is looked up in the list, falling back to the first non-recovery-code method. -/
def initialMethod (supportedMethods : Option (List String)) (store : LocalStorage) :
    Option String :=
  match supportedMethods with
  | none => none
  | some methods =>
    if methods.length = 1 then
      methods[0]?
    else
      let preferredMethod := getFromLocalStorage store PREFERRED_TWO_FACTOR_METHOD
      jsOrString
        (methods.find? (fun method => some method == preferredMethod))
        (methods.find? (fun method => method != "recovery_code"))

/-- The three two-factor methods the modal recognises. -/
def validMethod (m : String) : Prop :=
  m = "totp" ∨ m = "recovery_code" ∨ m = "webauthn"

instance validMethod.decidable (m : String) : Decidable (validMethod m) :=
  inferInstanceAs (Decidable (m = "totp" ∨ m = "recovery_code" ∨ m = "webauthn"))

/-- Modelled from the spec: the error constructed by
createError(ERROR.TWO_FACTOR_AUTH_CANCELED) from lib/errors, which is not part
of the sources; only its identity matters to the modal. -/
inductive AuthError where
  | TWO_FACTOR_AUTH_CANCELED
  deriving DecidableEq, Repr

/-- The payload passed to prompt.resolveAuth: a type tag (the selected method,
which is nullable in the code) and a code string. -/
structure AuthResult where
  type : Option String
  code : String
  deriving DecidableEq, Repr

/-- The pending authentication promise of the prompt: pending until resolved
with an AuthResult or rejected with an error; a settled promise stays settled. -/
inductive PromiseState where
  | pending
  | resolved (r : AuthResult)
  | rejected (e : AuthError)
  deriving DecidableEq, Repr

/-- Embeds prompt.resolveAuth: settles a pending promise, no-op otherwise. -/
def resolveAuth (p : PromiseState) (r : AuthResult) : PromiseState :=
  match p with
  | .pending => .resolved r
  | _ => p

/-- Embeds prompt.rejectAuth: rejects a pending promise, no-op otherwise. -/
def rejectAuth (p : PromiseState) (e : AuthError) : PromiseState :=
  match p with
  | .pending => .rejected e
  | _ => p

/-- The React state of TwoFactorAuthenticationModal: selectedMethod,
twoFactorCode and confirming. -/
structure ModalState where
  selectedMethod : Option String
  twoFactorCode : String
  confirming : Bool
  deriving DecidableEq, Repr

/-- The world the modal acts on: its component state, the pending
authentication promise, the browser local storage and the toast list. -/
structure World where
  modal : ModalState
  promise : PromiseState
  store : LocalStorage
  toasts : List String

/-- User events on the modal. The async useWebAuthn handler is split at its
await point: webauthnStart is the synchronous prefix, and webauthnSuccess or
webauthnFailure is the continuation run when the browser assertion settles. -/
inductive ModalEvent where
  | selectMethod (m : String)
  | confirm
  | cancel
  | closeDialog
  | webauthnStart
  | webauthnSuccess (response : String)
  | webauthnFailure (msg : String)

/-- Embeds the event handlers of TwoFactorAuthenticationModal.tsx as one step
function. b64 stands for Buffer.from(JSON.stringify r).toString base64, the
external base64 encoding applied to the WebAuthn assertion response. -/
def stepModal (b64 : String → String) (w : World) : ModalEvent → World
  | .selectMethod m =>
    { w with modal := { w.modal with selectedMethod := some m } }
  | .confirm =>
    let code := w.modal.twoFactorCode
    let sel := w.modal.selectedMethod
    { modal := { selectedMethod := none, twoFactorCode := "", confirming := false },
      promise := resolveAuth w.promise { type := sel, code := code },
      store :=
        if sel ≠ some "recovery_code" then
          setLocalStorage w.store PREFERRED_TWO_FACTOR_METHOD (sel.getD "null")
        else
          w.store,
      toasts := w.toasts }
  | .cancel =>
    { w with
      modal := { selectedMethod := none, twoFactorCode := "", confirming := false },
      promise := rejectAuth w.promise .TWO_FACTOR_AUTH_CANCELED }
  | .closeDialog =>
    { w with
      modal := { selectedMethod := none, twoFactorCode := "", confirming := false },
      promise := rejectAuth w.promise .TWO_FACTOR_AUTH_CANCELED }
  | .webauthnStart =>
    { w with
      modal := { w.modal with twoFactorCode := "", confirming := true },
      store := setLocalStorage w.store PREFERRED_TWO_FACTOR_METHOD "webauthn" }
  | .webauthnSuccess response =>
    { w with
      modal := { w.modal with confirming := false },
      promise := resolveAuth w.promise { type := some "webauthn", code := b64 response } }
  | .webauthnFailure msg =>
    { w with
      modal := { w.modal with confirming := false },
      toasts := w.toasts ++ [msg] }

/-- Embeds the verifyBtnEnabled expression of the modal. -/
def verifyBtnEnabled (supportedMethods : List String) (selectedMethod : Option String)
    (twoFactorCode : String) : Bool :=
  decide (supportedMethods.length > 0) &&
    ((selectedMethod == some "recovery_code" && decide (twoFactorCode.length > 0)) ||
      (selectedMethod == some "totp" && decide (twoFactorCode.length = 6)) ||
      selectedMethod == some "webauthn")

/-- The four abstract interaction states the spec ascribes to the modal. -/
inductive AbstractState where
  | idle
  | methodSelected
  | confirming
  | settled
  deriving DecidableEq, Repr, Fintype

/-- Maps a concrete world of the modal onto its abstract interaction state:
settled once the promise is no longer pending, confirming while the
confirming flag is set, method-selected while a method is chosen, idle
otherwise. -/
def abstractOf (w : World) : AbstractState :=
  if w.promise ≠ .pending then .settled
  else if w.modal.confirming then .confirming
  else if w.modal.selectedMethod.isSome then .methodSelected
  else .idle

/-- The abstract transition table of the modal: for each abstract state and
event, the set of abstract states the event can lead to. -/
def absNext : AbstractState → ModalEvent → List AbstractState
  | .settled, _ => [.settled]
  | .idle, .selectMethod _ => [.methodSelected]
  | .methodSelected, .selectMethod _ => [.methodSelected]
  | .confirming, .selectMethod _ => [.confirming]
  | _, .confirm => [.settled]
  | _, .cancel => [.settled]
  | _, .closeDialog => [.settled]
  | _, .webauthnStart => [.confirming]
  | _, .webauthnSuccess _ => [.settled]
  | _, .webauthnFailure _ => [.idle, .methodSelected]

/-- A concrete local storage holding a preferred-method entry, used to
instantiate theorems with hypotheses. -/
def sampleStore : LocalStorage :=
  fun k => if k = PREFERRED_TWO_FACTOR_METHOD then some "webauthn" else none

/-- A concrete world with a pending prompt and totp selected, used to
instantiate theorems with hypotheses. -/
def sampleWorld : World :=
  { modal := { selectedMethod := some "totp", twoFactorCode := "123456", confirming := false },
    promise := .pending,
    store := fun _ => none,
    toasts := [] }

end TwoFA

namespace Updates

/-- The fromCollective of an update post, as read by StyledUpdate. -/
structure FromCollective where
  id : Nat
  name : String
  slug : String
  deriving DecidableEq, Repr

/-- An update post as read by StyledUpdate. Dates are kept as the strings the
backend delivers; none stands for an absent field. -/
structure Update where
  id : Nat
  slug : String
  title : String
  summary : String
  html : Option String
  isPrivate : Bool
  publishedAt : Option String
  createdAt : String
  userCanSeeUpdate : Bool
  fromCollective : FromCollective
  deriving DecidableEq, Repr

/-- The collective an update belongs to, as read by StyledUpdate. -/
structure Collective where
  name : String
  slug : String
  deriving DecidableEq, Repr

/-- A logged-in user, with the two permission predicates StyledUpdate calls. -/
structure LoggedInUser where
  canEditUpdate : Update → Bool
  canEditCollective : Collective → Bool

/-- The mode field of the StyledUpdate component state. -/
inductive Mode where
  | summary
  | details
  | edit
  deriving DecidableEq, Repr

/-- The React state of StyledUpdate: modified and mode. -/
structure CompState where
  modified : Bool
  mode : Mode
  deriving DecidableEq, Repr

/-- The props StyledUpdate receives that its handlers read. -/
structure Props where
  collective : Collective
  update : Update
  compact : Bool
  editable : Bool
  loggedInUser : Option LoggedInUser

/-- The payload of the editUpdate GraphQL mutation: the fields coming from the
edit form, with a nullable id slot the save handler fills in. -/
structure UpdateAttrs where
  id : Option Nat
  title : String
  markdown : String
  html : String
  isPrivate : Bool
  deriving DecidableEq, Repr

/-- Modelled from the spec: the external effects the StyledUpdate handlers
trigger. editUpdateMutation and deleteUpdateMutation stand for the GraphQL
mutations bound by react-apollo at the bottom of the file, with the variables
each mutate call passes; pushRoute stands for Router.pushRoute of
server/pages, which is not part of the sources; consoleError stands for
console.error. -/
inductive Effect where
  | editUpdateMutation (update : UpdateAttrs)
  | deleteUpdateMutation (id : Nat)
  | pushRoute (route : String) (slug : String)
  | consoleError (msg : String)
  | consoleLog (msg : String)
  deriving DecidableEq, Repr

/-- Embeds the save handler of StyledUpdate: the edited fields get the id of
the update in the props, the editUpdate mutation is awaited, and on success
the state returns to details mode with modified false; a failed await
propagates before setState runs, leaving the state unchanged. The two
console.log calls around the await become consoleLog effects. -/
def save (props : Props) (st : CompState) (edited : UpdateAttrs) (mutationOk : Bool) :
    CompState × List Effect :=
  let payload := { edited with id := some props.update.id }
  if mutationOk then
    ({ modified := false, mode := .details },
      [.consoleLog ">>> updating ", .editUpdateMutation payload, .consoleLog ">>> save res"])
  else
    (st, [.consoleLog ">>> updating ", .editUpdateMutation payload])

/-- Embeds the deleteUpdate handler of StyledUpdate: nothing happens unless
the user confirms the browser dialog; then the deleteUpdate mutation runs with
the id of the update, and navigation to the collective route follows only when
the mutation succeeds, while a failure is logged with console.error. -/
def deleteUpdate (props : Props) (st : CompState) (userConfirms : Bool) (mutationOk : Bool) :
    CompState × List Effect :=
  if !userConfirms then
    (st, [])
  else if mutationOk then
    (st, [.deleteUpdateMutation props.update.id, .pushRoute "collective" props.collective.slug])
  else
    (st, [.deleteUpdateMutation props.update.id, .consoleError ">>> deleteUpdate error: "])

/-- The nodes renderUpdateMeta can emit, in render order. -/
inductive MetaNode where
  | privateLock (tooltip : String)
  | publishedAtBy (date : String)
  | createdAtDraft (date : String)
  | fromCollectiveName (name : String)
  | roleAdmin
  | toggleEditLink (label : String)
  | deleteLink
  deriving DecidableEq, Repr

/-- Embeds renderUpdateMeta of StyledUpdate as the list of nodes it renders:
a private-lock icon with its tooltip when the update is private, the
published or created date line, the author name, the admin role badge, and
the edit and delete links when editable. -/
def renderUpdateMeta (update : Update) (editable : Bool) (mode : Mode) : List MetaNode :=
  (if update.isPrivate then [MetaNode.privateLock "This update is private"] else []) ++
    (match update.publishedAt with
      | some d => [MetaNode.publishedAtBy d]
      | none => [MetaNode.createdAtDraft update.createdAt]) ++
    [MetaNode.fromCollectiveName update.fromCollective.name, MetaNode.roleAdmin] ++
    (if editable then
      [MetaNode.toggleEditLink (if mode = Mode.edit then "cancel edit" else "edit"),
        MetaNode.deleteLink]
    else [])

/-- The nodes renderFullContent can emit, in render order. -/
inductive ContentNode where
  | meta (nodes : List MetaNode)
  | htmlContent (html : String)
  | updateTextWithData (id : Nat)
  | cannotViewMessage (collectiveName : String)
  | viewLatestUpdatesLink (slug : String)
  | publishUpdateBtn (id : Nat)
  deriving DecidableEq, Repr

/-- JavaScript truthiness of a nullable string: null and the empty string are
falsy. -/
def strTruthy (s : Option String) : Bool :=
  match s with
  | none => false
  | some v => v != ""

/-- Embeds the canPublishUpdate expression of renderFullContent:
LoggedInUser and LoggedInUser.canEditCollective(collective) and no
publishedAt. -/
def canPublishUpdate (loggedInUser : Option LoggedInUser) (collective : Collective)
    (update : Update) : Bool :=
  match loggedInUser with
  | none => false
  | some u => u.canEditCollective collective && !(strTruthy update.publishedAt)

/-- Embeds renderFullContent of StyledUpdate as the list of nodes it renders:
the meta row, the html body or its lazy loader, the cannot-view message, the
view-latest-updates link for published updates, and the publish button when
canPublishUpdate holds. -/
def renderFullContent (props : Props) (mode : Mode) : List ContentNode :=
  let canEdit :=
    match props.loggedInUser with
    | none => false
    | some u => u.canEditUpdate props.update
  let canPublish := canPublishUpdate props.loggedInUser props.collective props.update
  let editable := !props.compact && props.editable && canEdit
  [ContentNode.meta (renderUpdateMeta props.update editable mode)] ++
    (if strTruthy props.update.html then [ContentNode.htmlContent (props.update.html.getD "")]
      else [ContentNode.updateTextWithData props.update.id]) ++
    (if !props.update.userCanSeeUpdate then [ContentNode.cannotViewMessage props.collective.name]
      else []) ++
    (if strTruthy props.update.publishedAt then
      [ContentNode.viewLatestUpdatesLink props.collective.slug]
    else []) ++
    (if canPublish then [ContentNode.publishUpdateBtn props.update.id] else [])

/-- A concrete user with full permissions, used to instantiate theorems with
hypotheses. -/
def sampleUser : LoggedInUser :=
  { canEditUpdate := fun _ => true, canEditCollective := fun _ => true }

/-- A concrete collective, used to instantiate theorems with hypotheses. -/
def sampleCollective : Collective :=
  { name := "Sample Collective", slug := "sample" }

/-- A concrete unpublished update, used to instantiate theorems with
hypotheses. -/
def sampleUpdate : Update :=
  { id := 7
    slug := "hello"
    title := "Hello"
    summary := "A summary"
    html := some "<p>body</p>"
    isPrivate := true
    publishedAt := none
    createdAt := "2019-01-01"
    userCanSeeUpdate := true
    fromCollective := { id := 1, name := "Author", slug := "author" } }

/-- Concrete props for StyledUpdate, used to instantiate theorems with
hypotheses. -/
def sampleProps : Props :=
  { collective := sampleCollective
    update := sampleUpdate
    compact := false
    editable := true
    loggedInUser := some sampleUser }

end Updates

namespace TwoFA

/-- A string equal to a member of a list is found by find? and the match is
that string itself. -/
theorem find_beq_eq_self_of_mem (l : List String) (p : String) (hp : p ∈ l) :
    l.find? (fun m => some m == some p) = some p := by
  induction l with
  | nil => cases hp
  | cons a t ih =>
    by_cases ha : a = p
    · subst ha
      rw [List.find?_cons_of_pos _ (by simp)]
    · have hmem : p ∈ t := by
        rcases List.mem_cons.mp hp with h | h
        · exact absurd h.symm ha
        · exact h
      rw [List.find?_cons_of_neg _ (by simp [ha])]
      exact ih hmem

/-- Claim C1: a pending authentication promise is settled according to the
user event: confirming with totp or recovery_code selected resolves it with
that method as type and the entered code; a completed WebAuthn assertion
resolves it with type webauthn and the base64-encoded assertion as code;
cancelling, and closing the dialog, reject it with the
TWO_FACTOR_AUTH_CANCELED error. -/
theorem claim_C1_promise_settlement (b64 : String → String) (w : World)
    (hpending : w.promise = .pending) :
    (∀ m, (m = "totp" ∨ m = "recovery_code") → w.modal.selectedMethod = some m →
      (stepModal b64 w .confirm).promise =
        .resolved { type := some m, code := w.modal.twoFactorCode }) ∧
    (∀ response, (stepModal b64 w (.webauthnSuccess response)).promise =
      .resolved { type := some "webauthn", code := b64 response }) ∧
    (stepModal b64 w .cancel).promise = .rejected .TWO_FACTOR_AUTH_CANCELED ∧
    (stepModal b64 w .closeDialog).promise = .rejected .TWO_FACTOR_AUTH_CANCELED := by
  refine ⟨fun m hm hsel => ?_, fun response => ?_, ?_, ?_⟩ <;>
    simp [stepModal, resolveAuth, rejectAuth, hpending]
  rw [hsel]

/-- Witness for claim C1 at a concrete pending world with totp selected and
code 123456. -/
theorem claim_C1_witness :
    (stepModal id sampleWorld .confirm).promise =
      .resolved { type := some "totp", code := "123456" } :=
  (claim_C1_promise_settlement id sampleWorld rfl).1 "totp" (Or.inl rfl) rfl

/-- Claim C2: initialMethod returns null for an absent method list, the sole
element of a singleton list regardless of the stored preference, and
otherwise the stored preferred method when it occurs in the list, falling
back to the first method in list order that is not recovery_code. -/
theorem claim_C2_initial_method (methods : List String) (store : LocalStorage)
    (hv : ∀ m ∈ methods, validMethod m) :
    initialMethod none store = none ∧
    (∀ m, methods = [m] → initialMethod (some methods) store = some m) ∧
    (methods.length ≠ 1 →
      (∀ p, getFromLocalStorage store PREFERRED_TWO_FACTOR_METHOD = some p → p ∈ methods →
        initialMethod (some methods) store = some p) ∧
      ((∀ p, getFromLocalStorage store PREFERRED_TWO_FACTOR_METHOD = some p → p ∉ methods) →
        initialMethod (some methods) store =
          methods.find? (fun m => m != "recovery_code"))) := by
  refine ⟨rfl, fun m hm => ?_, fun hlen => ⟨fun p hp hmem => ?_, fun hmiss => ?_⟩⟩
  · subst hm
    simp [initialMethod]
  · have hne : p ≠ "" := by
      rcases hv p hmem with h | h | h <;> simp [h]
    simp only [initialMethod, if_neg hlen, hp, find_beq_eq_self_of_mem methods p hmem,
      jsOrString, if_neg hne]
  · rcases hstore : getFromLocalStorage store PREFERRED_TWO_FACTOR_METHOD with _ | p
    · have hnone : methods.find? (fun m => some m == none) = none := by
        rw [List.find?_eq_none]
        intro x _
        simp
      simp only [initialMethod, if_neg hlen, hstore, hnone, jsOrString]
    · have hnone : methods.find? (fun m => some m == some p) = none := by
        rw [List.find?_eq_none]
        intro x hx hbeq
        exact hmiss p hstore (by simpa using (by simpa using hbeq : x = p) ▸ hx)
      simp only [initialMethod, if_neg hlen, hstore, hnone, jsOrString]

/-- Witness for claim C2 at a concrete two-element list with a stored
preference for webauthn. -/
theorem claim_C2_witness :
    (∀ m ∈ ["totp", "webauthn"], validMethod m) ∧
    initialMethod (some ["totp", "webauthn"]) sampleStore = some "webauthn" :=
  ⟨by decide,
    ((claim_C2_initial_method ["totp", "webauthn"] sampleStore (by decide)).2.2
      (by decide)).1 "webauthn" rfl (by simp)⟩

/-- Claim C4: the Verify button is enabled exactly when the supported-method
list is non-empty and the selected method with the entered code pass the
per-method check: recovery_code with a non-empty code, totp with a six-digit
code, or webauthn with no code required. -/
theorem claim_C4_verify_button (supportedMethods : List String)
    (selectedMethod : Option String) (twoFactorCode : String) :
    verifyBtnEnabled supportedMethods selectedMethod twoFactorCode = true ↔
      supportedMethods ≠ [] ∧
        ((selectedMethod = some "recovery_code" ∧ 0 < twoFactorCode.length) ∨
          (selectedMethod = some "totp" ∧ twoFactorCode.length = 6) ∨
          selectedMethod = some "webauthn") := by
  simp only [verifyBtnEnabled, Bool.and_eq_true, Bool.or_eq_true, decide_eq_true_eq,
    beq_iff_eq, gt_iff_lt, List.length_pos]
  tauto

/-- Claim C3: the modal is a state machine over at most four abstract states,
and every user event moves the component along the abstract transition table,
hence stays inside the four-state set. -/
theorem claim_C3_state_machine :
    Fintype.card AbstractState = 4 ∧
    ∀ (b64 : String → String) (w : World) (e : ModalEvent),
      abstractOf (stepModal b64 w e) ∈ absNext (abstractOf w) e := by
  refine ⟨by decide, ?_⟩
  intro b64 w e
  rcases w with ⟨⟨sel, code, conf⟩, promise, store, toasts⟩
  cases e <;> cases promise <;> cases conf <;> cases sel <;>
    simp [stepModal, abstractOf, absNext, resolveAuth, rejectAuth]

/-- Claim C7: confirming with totp or webauthn selected stores that method
under the preferred-method key, using WebAuthn stores webauthn there,
confirming with recovery_code leaves the storage untouched, and no modal
event writes any other local-storage key. -/
theorem claim_C7_local_storage_frame (b64 : String → String) (w : World) :
    (∀ m, (m = "totp" ∨ m = "webauthn") → w.modal.selectedMethod = some m →
      getFromLocalStorage (stepModal b64 w .confirm).store PREFERRED_TWO_FACTOR_METHOD =
        some m) ∧
    getFromLocalStorage (stepModal b64 w .webauthnStart).store PREFERRED_TWO_FACTOR_METHOD =
      some "webauthn" ∧
    (w.modal.selectedMethod = some "recovery_code" →
      (stepModal b64 w .confirm).store = w.store) ∧
    (∀ (e : ModalEvent) (k : String), k ≠ PREFERRED_TWO_FACTOR_METHOD →
      (stepModal b64 w e).store k = w.store k) := by
  refine ⟨fun m hm hsel => ?_, ?_, fun hsel => ?_, fun e k hk => ?_⟩
  · have hne : ¬(some m = some "recovery_code") := by
      rcases hm with h | h <;> simp [h]
    simp [stepModal, hsel, hne, setLocalStorage, getFromLocalStorage]
  · simp [stepModal, setLocalStorage, getFromLocalStorage]
  · simp [stepModal, hsel]
  · cases e with
    | selectMethod m => rfl
    | confirm =>
      simp only [stepModal]
      split
      · simp [setLocalStorage, hk]
      · rfl
    | cancel => rfl
    | closeDialog => rfl
    | webauthnStart => simp [stepModal, setLocalStorage, hk]
    | webauthnSuccess response => rfl
    | webauthnFailure msg => rfl

/-- Witness for claim C7 at a concrete world with totp selected: confirming
stores totp under the preferred-method key. -/
theorem claim_C7_witness :
    getFromLocalStorage (stepModal id sampleWorld .confirm).store
      PREFERRED_TWO_FACTOR_METHOD = some "totp" :=
  (claim_C7_local_storage_frame id sampleWorld).1 "totp" (Or.inl rfl) rfl

end TwoFA

namespace Updates

/-- Claim C5: the save handler issues the editUpdate mutation with the edited
fields carrying the id of the existing update, and on success returns the
component to details mode with modified false; the delete handler, confirmed
and successful, issues the deleteUpdate mutation with the id of the update and
then navigates to the collective route. -/
theorem claim_C5_graphql_binding (props : Props) (st : CompState) (edited : UpdateAttrs) :
    ((save props st edited true).1 = { modified := false, mode := .details } ∧
      (save props st edited true).2 =
        [.consoleLog ">>> updating ",
          .editUpdateMutation { edited with id := some props.update.id },
          .consoleLog ">>> save res"]) ∧
    (∀ ok, Effect.editUpdateMutation { edited with id := some props.update.id } ∈
      (save props st edited ok).2) ∧
    (deleteUpdate props st true true).2 =
      [.deleteUpdateMutation props.update.id,
        .pushRoute "collective" props.collective.slug] := by
  refine ⟨⟨rfl, rfl⟩, fun ok => ?_, rfl⟩
  cases ok <;> simp [save]

/-- Claim C6: delete is guarded and atomic: a declined confirmation performs
no mutation and no navigation and leaves the state unchanged; a failing
mutation logs the error and never navigates; navigation appears in the trace
only after the successful mutation. -/
theorem claim_C6_delete_guarded (props : Props) (st : CompState) :
    (∀ ok, deleteUpdate props st false ok = (st, [])) ∧
    ((deleteUpdate props st true false).1 = st ∧
      Effect.consoleError ">>> deleteUpdate error: " ∈ (deleteUpdate props st true false).2 ∧
      (∀ r s, Effect.pushRoute r s ∉ (deleteUpdate props st true false).2)) ∧
    ((deleteUpdate props st true true).1 = st ∧
      (deleteUpdate props st true true).2 =
        [.deleteUpdateMutation props.update.id,
          .pushRoute "collective" props.collective.slug]) := by
  refine ⟨fun ok => ?_, ⟨rfl, ?_, fun r s => ?_⟩, rfl, rfl⟩
  · cases ok <;> rfl
  · simp [deleteUpdate]
  · simp [deleteUpdate]

/-- Witness for claim C6 at concrete props and state: a declined confirmation
leaves everything unchanged. -/
theorem claim_C6_witness :
    deleteUpdate sampleProps { modified := false, mode := .details } false true =
      ({ modified := false, mode := .details }, []) :=
  (claim_C6_delete_guarded sampleProps { modified := false, mode := .details }).1 true

/-- The publish button appears in the full-content rendering exactly when
canPublishUpdate holds. -/
theorem publishBtn_mem_iff (props : Props) (mode : Mode) :
    (ContentNode.publishUpdateBtn props.update.id ∈ renderFullContent props mode) ↔
      canPublishUpdate props.loggedInUser props.collective props.update = true := by
  simp only [renderFullContent]
  split_ifs <;> simp [*]

/-- Claim C8: the publish action is rendered in the full-content view exactly
when a logged-in user can edit the collective and the update has no
publishedAt timestamp; once published, it is never shown. -/
theorem claim_C8_publish_button (props : Props) (mode : Mode)
    (hts : props.update.publishedAt ≠ some "") :
    (ContentNode.publishUpdateBtn props.update.id ∈ renderFullContent props mode ↔
      (∃ u, props.loggedInUser = some u ∧ u.canEditCollective props.collective = true) ∧
        props.update.publishedAt = none) ∧
    (props.update.publishedAt ≠ none →
      ContentNode.publishUpdateBtn props.update.id ∉ renderFullContent props mode) := by
  have hiff : ContentNode.publishUpdateBtn props.update.id ∈ renderFullContent props mode ↔
      (∃ u, props.loggedInUser = some u ∧ u.canEditCollective props.collective = true) ∧
        props.update.publishedAt = none := by
    rw [publishBtn_mem_iff props mode]
    rcases hlu : props.loggedInUser with _ | u
    · simp [canPublishUpdate, hlu]
    · cases hpa : props.update.publishedAt with
      | none => simp [canPublishUpdate, hlu, hpa, strTruthy]
      | some d =>
        have hd : ¬(d = "") := fun h => hts (by rw [hpa, h])
        simp [canPublishUpdate, hlu, hpa, strTruthy, hd]
  exact ⟨hiff, fun hne hmem => hne (hiff.mp hmem).2⟩

/-- Witness for claim C8 at concrete props with an admin user and an
unpublished update: the publish button is rendered. -/
theorem claim_C8_witness :
    sampleProps.update.publishedAt ≠ some "" ∧
    ContentNode.publishUpdateBtn sampleProps.update.id ∈
      renderFullContent sampleProps Mode.details := by
  have h : sampleProps.update.publishedAt ≠ some "" := by
    simp [sampleProps, sampleUpdate]
  exact ⟨h, (claim_C8_publish_button sampleProps Mode.details h).1.mpr
    ⟨⟨sampleUser, rfl, rfl⟩, rfl⟩⟩

/-- Claim C9: the rendered metadata shows the private-lock indicator with the
tooltip saying the update is private exactly when the isPrivate flag is set,
and shows no lock indicator at all otherwise. -/
theorem claim_C9_private_lock (upd : Update) (editable : Bool) (mode : Mode) :
    (MetaNode.privateLock "This update is private" ∈ renderUpdateMeta upd editable mode ↔
      upd.isPrivate = true) ∧
    (upd.isPrivate = false →
      ∀ t, MetaNode.privateLock t ∉ renderUpdateMeta upd editable mode) := by
  refine ⟨?_, fun hp t => ?_⟩
  · cases hp : upd.isPrivate
    all_goals
      simp only [renderUpdateMeta, hp]
      cases hpa : upd.publishedAt <;> split_ifs <;> simp_all
  · simp only [renderUpdateMeta, hp]
    cases hpa : upd.publishedAt <;> split_ifs <;> simp_all

/-- Witness for claim C9 at a concrete private update: the lock indicator
with its tooltip is rendered. -/
theorem claim_C9_witness :
    MetaNode.privateLock "This update is private" ∈
      renderUpdateMeta sampleUpdate true Mode.details :=
  (claim_C9_private_lock sampleUpdate true Mode.details).1.mpr rfl

end Updates
